import Mathlib

/-!
Verification development for the gesture-controlled 3D particle field.

The definitions below are a shallow embedding of the repository's tick logic:

* `HandTracker.tsx` — the `predict` loop: per-frame gesture classification,
  persistence-counter hysteresis, pointer/pinch exponential smoothing, and the
  grace-period fallback for detection dropout.
* the particle system file — the `useFrame` body of `ParticleSystem`
  (shape state machine, rotation control with deadzone, auto-leveling),
  the `SubSystem` per-particle target/smoothing update, the `PhotoGroup`
  closest-photo focus selection, and the `PhotoFrame` position smoothing.

All numeric state is modelled over `ℚ` (the source's doubles carry exact
decimal constants and the claims are about exact update rules, not rounding).
-/

namespace XmasTree

/-- The stabilizer's discrete gesture states (`lastState` values in the source). -/
inductive Gest
  | NEUTRAL
  | FIST
  | OPEN
  | PINCH
deriving DecidableEq, Repr

/-- Per-tick raw observation handed to the stabilizer when a hand is present:
the three per-frame classification flags (`frameIsFist`, `frameIsPinch`,
`frameIsOpen`) and the raw pointer/pinch values (`rawX`, `rawY`, `targetPinch`). -/
structure RawInput where
  frameIsFist : Bool
  frameIsPinch : Bool
  frameIsOpen : Bool
  rawX : ℚ
  rawY : ℚ
  targetPinch : ℚ
deriving DecidableEq, Repr

/-- The emitted `HandData` record (see `types.ts`); `palmPosition.z` is always 0
in the source, so it is kept as a plain field `palmZ`. -/
structure HandData where
  hasHand : Bool
  isOpen : Bool
  isClosed : Bool
  isPinching : Bool
  pinchDistance : ℚ
  palmX : ℚ
  palmY : ℚ
  palmZ : ℚ
deriving DecidableEq, Repr

/-- `persistenceRef.current` in the source. -/
structure Persistence where
  fistFrames : ℕ
  pinchFrames : ℕ
  openFrames : ℕ
  lastState : Gest
deriving DecidableEq, Repr

/-- `smoothedRef.current` in the source. -/
structure Smoothed where
  x : ℚ
  y : ℚ
  pinch : ℚ
deriving DecidableEq, Repr

/-- The whole mutable state of the prediction loop in `HandTracker.tsx`. -/
structure TrackerState where
  smoothed : Smoothed
  pers : Persistence
  missingHandFrames : ℕ
  lastValid : HandData
deriving DecidableEq, Repr

/-- `const THRESHOLD = 3` in `predict`. -/
def THRESHOLD : ℕ := 3

/-- `const GRACE_LIMIT = 40`. -/
def GRACE_LIMIT : ℕ := 40

/-- `const alpha = 0.3`, the pointer/pinch smoothing coefficient. -/
def alpha : ℚ := 3 / 10

/-- Initial `smoothedRef` value `{ x: 0, y: 0, pinch: 1 }`. -/
def initialSmoothed : Smoothed := ⟨0, 0, 1⟩

/-- Initial `persistenceRef` value. -/
def initialPersistence : Persistence := ⟨0, 0, 0, Gest.NEUTRAL⟩

/-- Initial `lastValidHandDataRef` value. -/
def initialLastValid : HandData :=
  ⟨false, false, false, false, 1, 0, 0, 0⟩

/-- Initial state of the prediction loop. -/
def initialTracker : TrackerState :=
  ⟨initialSmoothed, initialPersistence, 0, initialLastValid⟩

/-- Counter update on a hand-present tick:
`if (frameIsFist) p.fistFrames++; else p.fistFrames = 0;` and likewise for
pinch and open. -/
def stepCounters (p : Persistence) (f : RawInput) : Persistence :=
  { p with
    fistFrames := if f.frameIsFist then p.fistFrames + 1 else 0
    pinchFrames := if f.frameIsPinch then p.pinchFrames + 1 else 0
    openFrames := if f.frameIsOpen then p.openFrames + 1 else 0 }

/-- The stable-state cascade of `predict` (read after the counters were
updated; `p.lastState` is still the previous stable state at this point):
pinch > 3 → PINCH; else fist > 3 → FIST; else open > 3 → OPEN; else all three
zero → NEUTRAL; else keep `lastState`. -/
def stableState (p : Persistence) : Gest :=
  if p.pinchFrames > THRESHOLD then Gest.PINCH
  else if p.fistFrames > THRESHOLD then Gest.FIST
  else if p.openFrames > THRESHOLD then Gest.OPEN
  else if p.fistFrames = 0 ∧ p.pinchFrames = 0 ∧ p.openFrames = 0 then Gest.NEUTRAL
  else p.lastState

/-- One full persistence update of a hand-present tick: counters, then
`p.lastState = finalState`. -/
def stepPersistence (p : Persistence) (f : RawInput) : Persistence :=
  let p1 := stepCounters p f
  { p1 with lastState := stableState p1 }

/-- One pointer/pinch smoothing step: `smoothed += (raw - smoothed) * alpha`. -/
def stepSmoothed (s : Smoothed) (f : RawInput) : Smoothed :=
  { x := s.x + (f.rawX - s.x) * alpha
    y := s.y + (f.rawY - s.y) * alpha
    pinch := s.pinch + (f.targetPinch - s.pinch) * alpha }

/-- The hand-present branch of `predict` (lines 180–215 of the source):
reset the missing-frame counter, update persistence and smoothing, build the
new `HandData`, store it in `lastValidHandDataRef` and emit it. -/
def handPresentTick (s : TrackerState) (f : RawInput) : TrackerState × HandData :=
  let p2 := stepPersistence s.pers f
  let sm := stepSmoothed s.smoothed f
  let nd : HandData :=
    { hasHand := true
      isOpen := decide (p2.lastState = Gest.OPEN)
      isClosed := decide (p2.lastState = Gest.FIST)
      isPinching := decide (p2.lastState = Gest.PINCH)
      pinchDistance := sm.pinch
      palmX := sm.x
      palmY := sm.y
      palmZ := 0 }
  (⟨sm, p2, 0, nd⟩, nd)

/-- The reset `HandData` emitted once the grace limit is exceeded. -/
def resetData : HandData :=
  ⟨false, false, false, false, 1, 0, 0, 0⟩

/-- The no-hand branch of `predict` (lines 217–233): increment the
missing-frame counter; while it is still below `GRACE_LIMIT`, re-emit the last
valid `HandData`; otherwise force the stable state to NEUTRAL and emit
`resetData`.  Note that neither branch touches the persistence counters nor the
smoothing accumulators. -/
def handAbsentTick (s : TrackerState) : TrackerState × HandData :=
  let m := s.missingHandFrames + 1
  if m < GRACE_LIMIT then
    ({ s with missingHandFrames := m }, s.lastValid)
  else
    ({ s with
        missingHandFrames := m
        pers := { s.pers with lastState := Gest.NEUTRAL } },
      resetData)

/-- One tick of the prediction loop: the input is `some f` when the landmark
model reported a hand and `none` otherwise. -/
def predictTick (s : TrackerState) (i : Option RawInput) : TrackerState × HandData :=
  match i with
  | some f => handPresentTick s f
  | none => handAbsentTick s

/-- Run the prediction loop over a list of per-tick inputs, keeping the state. -/
def runTracker (s : TrackerState) (l : List (Option RawInput)) : TrackerState :=
  l.foldl (fun s i => (predictTick s i).1) s

/-! ### Gesture classifier (lines 146–177 of `HandTracker.tsx`)

A landmark frame is the 21 hand landmarks, each a 3D point.  The source
compares Euclidean distances `d(i,j) = Math.hypot(Δx, Δy, Δz)` against
nonnegative multiples of `palmScale = d(0, 9)`; both sides of every comparison
are nonnegative, so each comparison is equivalent to the same comparison of
squares.  The embedding therefore works with the (rational) squared distances
`dsq`, with each threshold squared: `1.4² = 49/25`, `1.7² = 289/100`,
`1.5² = 9/4`, `0.5² = 1/4`; and `palmScale > 0 ↔ dsq 0 9 > 0`. -/

/-- A 3D landmark point. -/
structure Pt3 where
  x : ℚ
  y : ℚ
  z : ℚ
deriving DecidableEq, Repr

/-- A landmark frame: the 21 hand landmarks. -/
def Frame := Fin 21 → Pt3

instance : DecidableEq Frame := by
  unfold Frame
  infer_instance

/-- Squared Euclidean distance between landmarks `i` and `j`
(the square of the source's `d(i, j)`). -/
def dsq (lm : Frame) (i j : Fin 21) : ℚ :=
  ((lm i).x - (lm j).x) * ((lm i).x - (lm j).x)
    + ((lm i).y - (lm j).y) * ((lm i).y - (lm j).y)
    + ((lm i).z - (lm j).z) * ((lm i).z - (lm j).z)

/-- Square of `palmScale = d(0, 9)`. -/
def palmScaleSq (lm : Frame) : ℚ := dsq lm 0 9

/-- The four fingertip landmarks `tips = [8, 12, 16, 20]`. -/
def tips : List (Fin 21) := [8, 12, 16, 20]

/-- `foldedCount`: fingertips with `d(0, t) < 1.4 * palmScale`. -/
def foldedCount (lm : Frame) : ℕ :=
  (tips.filter (fun t => dsq lm 0 t < (49 / 25) * palmScaleSq lm)).length

/-- `extendedCount`: fingertips with `d(0, t) > 1.7 * palmScale`. -/
def extendedCount (lm : Frame) : ℕ :=
  (tips.filter (fun t => dsq lm 0 t > (289 / 100) * palmScaleSq lm)).length

/-- `normPinch < 0.5`, i.e. `d(4, 8) < 0.5 * palmScale`, in squared form. -/
def pinchClose (lm : Frame) : Prop :=
  dsq lm 4 8 < (1 / 4) * palmScaleSq lm

instance (lm : Frame) : Decidable (pinchClose lm) := by
  unfold pinchClose; infer_instance

/-- `isMiddleExtended`: `d(0, 12) > 1.5 * palmScale`, in squared form. -/
def isMiddleExtended (lm : Frame) : Prop :=
  (9 / 4) * palmScaleSq lm < dsq lm 0 12

instance (lm : Frame) : Decidable (isMiddleExtended lm) := by
  unfold isMiddleExtended; infer_instance

/-- The raw per-frame gesture: the flag-setting cascade of lines 152–177.
When `palmScale ≤ 0` no flag is set, which the stabilizer reads as a NEUTRAL
raw frame. -/
def classifyRaw (lm : Frame) : Gest :=
  if 0 < palmScaleSq lm then
    if foldedCount lm ≥ 3 then Gest.FIST
    else if extendedCount lm ≥ 3 then Gest.OPEN
    else if pinchClose lm ∧ isMiddleExtended lm then Gest.PINCH
    else Gest.NEUTRAL
  else Gest.NEUTRAL

/-! ### Particle system frame logic (`ParticleSystem`'s `useFrame`) -/

/-- `containerRotation`, a THREE.Euler — three accumulated angles. -/
structure Euler3 where
  x : ℚ
  y : ℚ
  z : ℚ
deriving DecidableEq, Repr

/-- The refs of `ParticleSystem`: `containerRotation`, `prevHandPos`,
`wasTrackingRef`, `isExplodedRef`. -/
structure PSState where
  containerRotation : Euler3
  prevHandPos : ℚ × ℚ
  wasTracking : Bool
  isExploded : Bool
deriving DecidableEq, Repr

/-- `THREE.MathUtils.lerp (a, b, t) = a + (b - a) * t`. -/
def lerp (a b t : ℚ) : ℚ := a + (b - a) * t

/-- `const DEADZONE = 0.003`. -/
def DEADZONE : ℚ := 3 / 1000

/-- `const sensitivity = 0.8`. -/
def sensitivity : ℚ := 4 / 5

/-- Initial refs: rotation `(0,0,0)`, `prevHandPos {x:0,y:0}`,
`wasTracking = false`, `isExploded = false`. -/
def initialPS : PSState := ⟨⟨0, 0, 0⟩, (0, 0), false, false⟩

/-- The shape state machine (lines 412–415): while a hand is present,
`isOpen` sets the exploded flag and `isClosed` clears it (the two `if`s run in
sequence, so `isClosed` wins when both are set). -/
def shapeUpdate (exploded : Bool) (h : HandData) : Bool :=
  if h.hasHand then
    let e1 := if h.isOpen then true else exploded
    if h.isClosed then false else e1
  else exploded

/-- The hand-present rotation control (lines 418–449): compute the pointer
delta against `prevHandPos` (re-anchored to the current pointer on the first
tracked tick); inside the deadzone nothing changes; otherwise FIST rotates
yaw only (and decays pitch at 0.1) and OPEN rotates both pitch and yaw with
sensitivity 0.8. -/
def rotationControl (ps : PSState) (h : HandData) : Euler3 :=
  let prev := if ps.wasTracking then ps.prevHandPos else (h.palmX, h.palmY)
  let dx := h.palmX - prev.1
  let dy := h.palmY - prev.2
  if |dx| > DEADZONE ∨ |dy| > DEADZONE then
    if h.isClosed then
      { x := lerp ps.containerRotation.x 0 (1 / 10)
        y := ps.containerRotation.y + dx * sensitivity
        z := ps.containerRotation.z }
    else if h.isOpen then
      { x := ps.containerRotation.x + dy * sensitivity
        y := ps.containerRotation.y + dx * sensitivity
        z := ps.containerRotation.z }
    else ps.containerRotation
  else ps.containerRotation

/-- Compact-mode auto-leveling (lines 457–462): when not exploded, decay the
x and z angles toward 0 at rate 0.05; the y angle is never touched. -/
def autoLevel (exploded : Bool) (r : Euler3) : Euler3 :=
  if exploded then r
  else { r with x := lerp r.x 0 (1 / 20), z := lerp r.z 0 (1 / 20) }

/-- One `useFrame` body of `ParticleSystem` (lines 408–463): shape state
machine, rotation control with deadzone (hand-present only, which also
updates `prevHandPos` and `wasTracking`), then auto-leveling against the
updated exploded flag. -/
def particleFrame (ps : PSState) (h : HandData) : PSState :=
  if h.hasHand then
    { containerRotation := autoLevel (shapeUpdate ps.isExploded h) (rotationControl ps h)
      prevHandPos := (h.palmX, h.palmY)
      wasTracking := true
      isExploded := shapeUpdate ps.isExploded h }
  else
    { containerRotation := autoLevel (shapeUpdate ps.isExploded h) ps.containerRotation
      prevHandPos := ps.prevHandPos
      wasTracking := false
      isExploded := shapeUpdate ps.isExploded h }

/-- Run a sequence of particle-system frames. -/
def runPS (ps : PSState) (hs : List HandData) : PSState :=
  hs.foldl particleFrame ps

/-- The `HandData` of a tick with no detected hand (only `hasHand` matters to
`particleFrame` on this path). -/
def noHand : HandData := ⟨false, false, false, false, 1, 0, 0, 0⟩

/-- Iterated no-hand frames (the auto-leveling run). -/
def autoLevelRun (ps : PSState) : ℕ → PSState
  | 0 => ps
  | n + 1 => particleFrame (autoLevelRun ps n) noHand

/-! ### SubSystem per-particle update (lines 531–549) -/

/-- A 3D vector over ℚ. -/
structure Vec3 where
  x : ℚ
  y : ℚ
  z : ℚ
deriving DecidableEq, Repr

/-- The per-particle data used by the position update: the two anchors
(`treePos`, `spherePos`) plus the fixed scale. -/
structure ParticleData where
  treePos : Vec3
  spherePos : Vec3
  scale : ℚ
deriving DecidableEq, Repr

/-- `const lerpFactor = 0.08`. -/
def lerpFactor : ℚ := 2 / 25

/-- The local target position of particle `i` of a `SubSystem` (also the
`localPos` of `PhotoGroup`): the sphere anchor when exploded, otherwise the
tree anchor with the vertical oscillation `sin(time * 1.5 + i) * 0.05`.
`sin` is the (transcendental) sine, passed in as a parameter. -/
def subTarget (isExploded : Bool) (sin : ℚ → ℚ) (time : ℚ) (i : ℕ) (p : ParticleData) : Vec3 :=
  if isExploded then p.spherePos
  else { p.treePos with y := p.treePos.y + sin (time * (3 / 2) + (i : ℚ)) * (1 / 20) }

/-- The per-axis exponential smoothing of `SubSystem`:
`currentPositions[a] += (targetPos.a - currentPositions[a]) * lerpFactor`. -/
def subSmooth (current target : Vec3) : Vec3 :=
  ⟨current.x + (target.x - current.x) * lerpFactor,
    current.y + (target.y - current.y) * lerpFactor,
    current.z + (target.z - current.z) * lerpFactor⟩

/-- One full position update of particle `i` in a `SubSystem` frame. -/
def subSystemStep (isExploded : Bool) (sin : ℚ → ℚ) (time : ℚ) (i : ℕ)
    (p : ParticleData) (current : Vec3) : Vec3 :=
  subSmooth current (subTarget isExploded sin time i p)

/-- `THREE.Vector3.lerp (v, a)`: per axis `this += (v - this) * a`. -/
def vecLerp (current target : Vec3) (a : ℚ) : Vec3 :=
  ⟨current.x + (target.x - current.x) * a,
    current.y + (target.y - current.y) * a,
    current.z + (target.z - current.z) * a⟩

/-- The position smoothing of a `PhotoFrame` (line 235–236): the group position
is lerped toward its target with per-frame coefficient `speed = 10 * delta`
(for an idle photo the target is the display position handed down by
`PhotoGroup`). -/
def photoFramePosStep (current target : Vec3) (delta : ℚ) : Vec3 :=
  vecLerp current target (10 * delta)

/-! ### PhotoGroup focus selection (lines 303–375)

The `forEach` loop tracks the strictly smallest camera distance seen so far
(`minDistance`, starting at `Infinity`) and its index; afterwards
`closestIndex` is that index if the minimum is below 12.0, else `-1` (here
`none`).  The embedding takes the list of per-photo camera distances
(`worldPos.distanceTo(camera.position)`) as input. -/

/-- The running fold of `PhotoGroup`'s `forEach`: `acc` is
`some (idx, minDistance)` once at least one distance was seen. -/
def findClosestAux (i : ℕ) (acc : Option (ℕ × ℚ)) : List ℚ → Option (ℕ × ℚ)
  | [] => acc
  | d :: ds =>
    let acc' : ℕ × ℚ :=
      match acc with
      | none => (i, d)
      | some (j, m) => if d < m then (i, d) else (j, m)
    findClosestAux (i + 1) (some acc') ds

/-- Index and value of the first strict minimum of the distance list. -/
def findClosest (ds : List ℚ) : Option (ℕ × ℚ) := findClosestAux 0 none ds

/-- `closestIndex` state: the minimum-distance photo if its distance is below
the 12.0 cutoff, otherwise none. -/
def closestIndex (ds : List ℚ) : Option ℕ :=
  match findClosest ds with
  | none => none
  | some (i, m) => if m < 12 then some i else none

/-- `isHovered = (closestIndex === i)`. -/
def isHovered (ds : List ℚ) (i : ℕ) : Bool :=
  decide (closestIndex ds = some i)

/-- `isSelected = (closestIndex === i && isPinching)`. -/
def isSelected (ds : List ℚ) (pinching : Bool) (i : ℕ) : Bool :=
  isHovered ds i && pinching

/-! ### Spec-side rule and scenario definitions -/

/-- The stable-state transition rule as worded in the spec, to be compared
with the code's `stableState`: pinch counter `> 3` → PINCH; else fist `> 3` →
FIST; else open `> 3` → OPEN; else all three counters exactly 0 → NEUTRAL;
else retain the previous stable state. -/
def specStableRule (pinchC fistC openC : ℕ) (prev : Gest) : Gest :=
  if pinchC > 3 then Gest.PINCH
  else if fistC > 3 then Gest.FIST
  else if openC > 3 then Gest.OPEN
  else if fistC = 0 ∧ pinchC = 0 ∧ openC = 0 then Gest.NEUTRAL
  else prev

/-- A hand-present tick whose raw classification is OPEN (pointer at rest,
hand fully open). -/
def openInput : RawInput := ⟨false, false, true, 0, 0, 1⟩

/-- A hand-present tick whose raw classification is PINCH. -/
def pinchInput : RawInput := ⟨false, true, false, 0, 0, 0⟩

/-- A hand-present tick with no raw gesture flag set. -/
def neutralInput : RawInput := ⟨false, false, false, 0, 0, 1⟩

/-- The pipeline trace of the end-to-end OPEN scenario: tracker state and
particle-system state after `n` ticks of raw-OPEN, hand-present input (tick
`k` of the scenario transforms `pipeState k` into `pipeState (k+1)`). -/
def pipeState : ℕ → TrackerState × PSState
  | 0 => (initialTracker, initialPS)
  | n + 1 =>
    let tp := pipeState n
    let td := handPresentTick tp.1 openInput
    (td.1, particleFrame tp.2 td.2)

/-- Tracker state after `n` consecutive hand-absent ticks from `s`. -/
def absentRun (s : TrackerState) : ℕ → TrackerState
  | 0 => s
  | k + 1 => (handAbsentTick (absentRun s k)).1

/-- The `HandData` emitted on the `(j+1)`-th consecutive hand-absent tick
after state `s`. -/
def absentEmit (s : TrackerState) (j : ℕ) : HandData :=
  (handAbsentTick (absentRun s j)).2

/-- The horizontal pointer delta the rotation control computes on a tick
(0 on the first tracked tick, where `prevHandPos` is re-anchored). -/
def effDx (ps : PSState) (h : HandData) : ℚ :=
  h.palmX - (if ps.wasTracking then ps.prevHandPos.1 else h.palmX)

/-- The vertical pointer delta the rotation control computes on a tick. -/
def effDy (ps : PSState) (h : HandData) : ℚ :=
  h.palmY - (if ps.wasTracking then ps.prevHandPos.2 else h.palmY)

/-- A hand-present input sequence all of whose per-tick pointer deltas (as
computed against the evolving particle-system state) lie within the deadzone. -/
def DeadzoneSeq : PSState → List HandData → Prop
  | _, [] => True
  | ps, h :: t =>
      h.hasHand = true ∧ |effDx ps h| ≤ DEADZONE ∧ |effDy ps h| ≤ DEADZONE
        ∧ DeadzoneSeq (particleFrame ps h) t

/-- A compact-mode state with a nonzero starting orientation and a resting
tracked pointer at the origin. -/
def tiltedCompactState : PSState := ⟨⟨1, 2, 1⟩, (0, 0), true, false⟩

/-- An expanded-mode state with a nonzero starting orientation and a resting
tracked pointer at the origin. -/
def calmExpandedState : PSState := ⟨⟨1, 2, 3⟩, (0, 0), true, true⟩

/-- A hand-present tick with the pointer resting at the origin (zero delta
against `prevHandPos = (0,0)`). -/
def restingHand : HandData := ⟨true, false, false, false, 1, 0, 0, 0⟩

/-- A hand-present tick with no raw gesture flag set and the pointer at the
origin. -/
def zeroInput : RawInput := ⟨false, false, false, 0, 0, 1⟩

/-- Tracker state after 5 raw-PINCH ticks (stable state PINCH, pinch counter
5) followed by 40 hand-absent ticks (grace expiry forces NEUTRAL). -/
def dropoutState : TrackerState :=
  runTracker initialTracker
    (List.replicate 5 (some pinchInput) ++ List.replicate 40 none)

/-- A tracker state one absent tick away from grace expiry, with nonzero
smoothed pointer/pinch accumulators. -/
def preDropoutState : TrackerState :=
  ⟨⟨2, 0, 1 / 2⟩, ⟨0, 0, 0, Gest.PINCH⟩, 39, resetData⟩

/-- A sample managed object with distinct tree and sphere anchors. -/
def sampleParticle : ParticleData := ⟨⟨1, 2, 3⟩, ⟨4, 5, 6⟩, 1⟩

/-- A state whose pinch counter is already warmed up to 3. -/
def warmPinchState : TrackerState :=
  ⟨initialSmoothed, ⟨0, 3, 0, Gest.NEUTRAL⟩, 0, initialLastValid⟩

/-- A concrete landmark frame: the middle-finger base sits one unit from the
wrist (`palmScale = 1`) and every other landmark coincides with the wrist, so
all four fingertips count as folded. -/
def foldedFrame : Frame := fun i => if i.val = 9 then ⟨1, 0, 0⟩ else ⟨0, 0, 0⟩

/-! ## C1 — stabilizer stable-state transition rule -/

/-- C1: on every hand-present tick the new stable state is computed from the
three updated persistence counters in fixed priority order (pinch `> 3` →
PINCH; else fist `> 3` → FIST; else open `> 3` → OPEN; else all three zero →
NEUTRAL; else the previous stable state is retained), and consequently the
stable state changes to a gesture only on a tick where that gesture's counter
strictly exceeds 3, and changes to NEUTRAL only on a tick where all three
counters are 0. -/
theorem stable_state_follows_priority_rule (s : TrackerState) (f : RawInput) :
    ((handPresentTick s f).1.pers.lastState
        = specStableRule (handPresentTick s f).1.pers.pinchFrames
            (handPresentTick s f).1.pers.fistFrames
            (handPresentTick s f).1.pers.openFrames s.pers.lastState) ∧
    ((handPresentTick s f).1.pers.lastState ≠ s.pers.lastState →
      ((handPresentTick s f).1.pers.lastState = Gest.PINCH
          ∧ (handPresentTick s f).1.pers.pinchFrames > 3) ∨
      ((handPresentTick s f).1.pers.lastState = Gest.FIST
          ∧ (handPresentTick s f).1.pers.fistFrames > 3) ∨
      ((handPresentTick s f).1.pers.lastState = Gest.OPEN
          ∧ (handPresentTick s f).1.pers.openFrames > 3) ∨
      ((handPresentTick s f).1.pers.lastState = Gest.NEUTRAL
          ∧ (handPresentTick s f).1.pers.fistFrames = 0
          ∧ (handPresentTick s f).1.pers.pinchFrames = 0
          ∧ (handPresentTick s f).1.pers.openFrames = 0)) := by
  constructor
  · simp only [handPresentTick, stepPersistence, stableState, specStableRule, stepCounters,
      THRESHOLD]
  · simp only [handPresentTick, stepPersistence, stableState, stepCounters, THRESHOLD]
    intro h
    split_ifs at h ⊢ with h1 h2 h3 h4 <;> simp_all

/-- Witness for C1: from a NEUTRAL state with pinch counter 3, one more raw
PINCH tick changes the stable state, and indeed the new state is PINCH with
its counter strictly above 3. -/
theorem stable_state_follows_priority_rule_witness :
    ((handPresentTick warmPinchState pinchInput).1.pers.lastState = Gest.PINCH
        ∧ (handPresentTick warmPinchState pinchInput).1.pers.pinchFrames > 3) ∨
    ((handPresentTick warmPinchState pinchInput).1.pers.lastState = Gest.FIST
        ∧ (handPresentTick warmPinchState pinchInput).1.pers.fistFrames > 3) ∨
    ((handPresentTick warmPinchState pinchInput).1.pers.lastState = Gest.OPEN
        ∧ (handPresentTick warmPinchState pinchInput).1.pers.openFrames > 3) ∨
    ((handPresentTick warmPinchState pinchInput).1.pers.lastState = Gest.NEUTRAL
        ∧ (handPresentTick warmPinchState pinchInput).1.pers.fistFrames = 0
        ∧ (handPresentTick warmPinchState pinchInput).1.pers.pinchFrames = 0
        ∧ (handPresentTick warmPinchState pinchInput).1.pers.openFrames = 0) :=
  (stable_state_follows_priority_rule warmPinchState pinchInput).2 (by decide)

/-! ## C2 — end-to-end OPEN scenario

With raw OPEN on ticks 0,1,2,3,... the open counter reaches 4 — strictly
above the threshold 3 — already on tick 3, so the stable state and the shape
mode switch on tick 3, one tick earlier than the claim's "at tick 4". -/

/-- C2 counterexample: under raw OPEN from the initial state, the stable state
is still NEUTRAL after tick 2 but is already OPEN — and the shape already
EXPANDED — after tick 3; hence the stable state does not *become* OPEN at
tick 4 (no transition happens there), refuting the claimed timing. -/
theorem open_scenario_timing_counterexample :
    (pipeState 3).1.pers.lastState = Gest.NEUTRAL ∧
    (pipeState 4).1.pers.lastState = Gest.OPEN ∧
    (pipeState 3).2.isExploded = false ∧
    (pipeState 4).2.isExploded = true := by decide

/-- C2 amended: in the OPEN scenario the stable state becomes OPEN at tick 3
(not 4) and ShapeMode becomes EXPANDED at tick 3; every exploded-mode target
is the sphere anchor; EXPANDED persists under any continuation whose emitted
states never report FIST; and (when the stable state is not already FIST) an
emitted FIST requires the fist counter to strictly exceed 3, i.e. a raw-FIST
run of the same qualifying length. -/
theorem open_scenario_amended :
    ((pipeState 3).1.pers.lastState = Gest.NEUTRAL) ∧
    ((pipeState 4).1.pers.lastState = Gest.OPEN) ∧
    ((pipeState 3).2.isExploded = false) ∧
    ((pipeState 4).2.isExploded = true) ∧
    ((pipeState 5).2.isExploded = true) ∧
    (∀ (sin : ℚ → ℚ) (time : ℚ) (i : ℕ) (p : ParticleData),
      subTarget true sin time i p = p.spherePos) ∧
    (∀ (ps : PSState) (h : HandData), ps.isExploded = true → h.isClosed = false →
      (particleFrame ps h).isExploded = true) ∧
    (∀ (s : TrackerState) (f : RawInput),
      (handPresentTick s f).2.isClosed = true → s.pers.lastState ≠ Gest.FIST →
        (handPresentTick s f).1.pers.fistFrames > 3 ∧ f.frameIsFist = true
          ∧ s.pers.fistFrames ≥ 3) := by
  refine ⟨by decide, by decide, by decide, by decide, by decide, ?_, ?_, ?_⟩
  · intro sin time i p
    simp [subTarget]
  · intro ps h hexp hc
    cases hh : h.hasHand <;> cases ho : h.isOpen <;>
      simp [particleFrame, shapeUpdate, hh, ho, hc, hexp]
  · intro s f hc hprev
    simp only [handPresentTick, stepPersistence, stableState, stepCounters, THRESHOLD,
      decide_eq_true_eq] at hc ⊢
    cases hf : f.frameIsFist <;>
      simp only [hf, if_true, if_false] at hc ⊢ <;>
      split_ifs at hc <;> simp_all <;> omega

/-- Witness for C2 (amended): the EXPANDED-persistence conjunct applied to a
concrete exploded state and a concrete non-FIST emission. -/
theorem open_scenario_amended_witness :
    (particleFrame ⟨⟨0, 0, 0⟩, (0, 0), true, true⟩ noHand).isExploded = true :=
  open_scenario_amended.2.2.2.2.2.2.1 ⟨⟨0, 0, 0⟩, (0, 0), true, true⟩ noHand rfl rfl

/-! ## C3 — grace period -/

/-- While the missing-frame counter stays below the grace limit, a run of
hand-absent ticks only increments that counter; every other component of the
tracker state is untouched. -/
theorem absentRun_grace (s : TrackerState) :
    ∀ n : ℕ, s.missingHandFrames + n < GRACE_LIMIT →
      absentRun s n = { s with missingHandFrames := s.missingHandFrames + n }
  | 0, _ => rfl
  | n + 1, h => by
    rw [absentRun, absentRun_grace s n (by omega)]
    simp only [handAbsentTick, GRACE_LIMIT]
    rw [if_pos (show s.missingHandFrames + n + 1 < 40 by
      simpa [GRACE_LIMIT] using h)]
    rfl

/-- C3: after a hand-present tick 0 and hand-absent ticks 1..40, the
`HandData` emitted on each of ticks 1..39 (absent tick index `j ≤ 38`) is the
tick-0 value unchanged; on tick 40 the emission is the reset baseline
(`hasHand = false`, pointer at the origin, pinch amount 1) and the stable
state is forced to NEUTRAL; and a hand-present tick always resets the
missing-frame counter to 0. -/
theorem grace_period_behavior (f : RawInput) :
    (∀ j : ℕ, j ≤ 38 →
      absentEmit ((handPresentTick initialTracker f).1) j
        = (handPresentTick initialTracker f).2) ∧
    (absentEmit ((handPresentTick initialTracker f).1) 39 = resetData) ∧
    ((absentRun ((handPresentTick initialTracker f).1) 40).pers.lastState
        = Gest.NEUTRAL) ∧
    (∀ (s : TrackerState) (g : RawInput),
      (handPresentTick s g).1.missingHandFrames = 0) := by
  have h0 : ((handPresentTick initialTracker f).1).missingHandFrames = 0 := rfl
  refine ⟨?_, ?_, ?_, fun s g => rfl⟩
  · intro j hj
    rw [absentEmit, absentRun_grace _ j (by simp only [h0, GRACE_LIMIT]; omega)]
    simp only [handAbsentTick, GRACE_LIMIT, h0]
    rw [if_pos (by omega : 0 + j + 1 < 40)]
    rfl
  · rw [absentEmit, absentRun_grace _ 39 (by simp only [h0, GRACE_LIMIT]; omega)]
    simp only [handAbsentTick, GRACE_LIMIT, h0]
    rw [if_neg (by omega : ¬(0 + 39 + 1 < 40))]
  · rw [absentRun, absentRun_grace _ 39 (by simp only [h0, GRACE_LIMIT]; omega)]
    simp only [handAbsentTick, GRACE_LIMIT, h0]
    rw [if_neg (by omega : ¬(0 + 39 + 1 < 40))]

/-- Witness for C3: in the concrete OPEN scenario, the emission on absent tick
6 (index 5) still equals the tick-0 emission. -/
theorem grace_period_behavior_witness :
    absentEmit ((handPresentTick initialTracker openInput).1) 5
      = (handPresentTick initialTracker openInput).2 :=
  (grace_period_behavior openInput).1 5 (by omega)

/-! ## C4 — raw per-frame gesture decision -/

/-- C4: first-match semantics of the raw classifier.  With `palmScale > 0`
(equivalently `palmScaleSq > 0`): FIST iff at least 3 fingertips are folded;
else OPEN iff at least 3 are extended; else PINCH iff the pinch distance is
below half the palm scale and the middle fingertip is extended beyond 1.5
palm scales; else NEUTRAL.  With `palmScale ≤ 0` the frame is NEUTRAL. -/
theorem classifier_first_match (lm : Frame) :
    (palmScaleSq lm ≤ 0 → classifyRaw lm = Gest.NEUTRAL) ∧
    (classifyRaw lm = Gest.FIST ↔ 0 < palmScaleSq lm ∧ 3 ≤ foldedCount lm) ∧
    (classifyRaw lm = Gest.OPEN ↔
      0 < palmScaleSq lm ∧ foldedCount lm < 3 ∧ 3 ≤ extendedCount lm) ∧
    (classifyRaw lm = Gest.PINCH ↔
      0 < palmScaleSq lm ∧ foldedCount lm < 3 ∧ extendedCount lm < 3
        ∧ pinchClose lm ∧ isMiddleExtended lm) := by
  unfold classifyRaw
  split_ifs with h1 h2 h3 h4 <;> simp_all

/-- Witness for C4: the folded frame classifies as FIST. -/
theorem classifier_first_match_witness : classifyRaw foldedFrame = Gest.FIST :=
  (classifier_first_match foldedFrame).2.1.mpr
    (by
      constructor
      · norm_num [palmScaleSq, dsq, show foldedFrame 0 = ⟨0, 0, 0⟩ from rfl,
          show foldedFrame 9 = ⟨1, 0, 0⟩ from rfl]
      · norm_num [foldedCount, tips, palmScaleSq, dsq, List.filter,
          show foldedFrame 0 = ⟨0, 0, 0⟩ from rfl,
          show foldedFrame 8 = ⟨0, 0, 0⟩ from rfl,
          show foldedFrame 9 = ⟨1, 0, 0⟩ from rfl,
          show foldedFrame 12 = ⟨0, 0, 0⟩ from rfl,
          show foldedFrame 16 = ⟨0, 0, 0⟩ from rfl,
          show foldedFrame 20 = ⟨0, 0, 0⟩ from rfl])

/-! ## C5 — pointer deadzone -/

/-- Auto-leveling never changes the y angle. -/
theorem autoLevel_y (e : Bool) (r : Euler3) : (autoLevel e r).y = r.y := by
  unfold autoLevel
  split <;> rfl

/-- Inside the deadzone the rotation control leaves the orientation alone. -/
theorem rotationControl_deadzone (ps : PSState) (h : HandData)
    (hdx : |effDx ps h| ≤ DEADZONE) (hdy : |effDy ps h| ≤ DEADZONE) :
    rotationControl ps h = ps.containerRotation := by
  simp only [effDx, effDy] at hdx hdy
  cases hw : ps.wasTracking <;>
    simp only [hw, if_true, if_false, Bool.false_eq_true] at hdx hdy <;>
    simp only [rotationControl, hw, if_true, if_false, Bool.false_eq_true] <;>
    rw [if_neg (by push_neg; exact ⟨not_lt.mp (fun hlt => absurd hdx (not_le.mpr hlt)),
      not_lt.mp (fun hlt => absurd hdy (not_le.mpr hlt))⟩)]

/-- C5 counterexample: a one-tick sequence whose pointer delta is (0,0) —
well inside the deadzone — in COMPACT mode from a nonzero starting
orientation still changes the orientation (the compact-mode auto-level decays
the x and z angles), so the net orientation change is not zero for every
ShapeMode and starting orientation. -/
theorem deadzone_counterexample :
    |effDx tiltedCompactState restingHand| ≤ DEADZONE ∧
    |effDy tiltedCompactState restingHand| ≤ DEADZONE ∧
    (particleFrame tiltedCompactState restingHand).containerRotation
      ≠ tiltedCompactState.containerRotation := by
  refine ⟨by norm_num [effDx, tiltedCompactState, restingHand, DEADZONE],
    by norm_num [effDy, tiltedCompactState, restingHand, DEADZONE], ?_⟩
  norm_num [particleFrame, shapeUpdate, rotationControl, autoLevel, lerp,
    tiltedCompactState, restingHand, DEADZONE, Euler3.mk.injEq]

/-- C5 amended: over any tick sequence whose per-tick pointer deltas all lie
within the deadzone, the yaw angle undergoes zero net change for every
gesture state, ShapeMode and starting orientation; and all three angles
undergo zero net change provided ShapeMode is EXPANDED throughout (the
compact-mode auto-level is what decays pitch and roll otherwise). -/
theorem deadzone_zero_net_rotation (ps : PSState) (hs : List HandData)
    (hdz : DeadzoneSeq ps hs) :
    (runPS ps hs).containerRotation.y = ps.containerRotation.y ∧
    (ps.isExploded = true → (∀ h ∈ hs, h.isClosed = false) →
      (runPS ps hs).containerRotation = ps.containerRotation) := by
  induction hs generalizing ps with
  | nil => exact ⟨rfl, fun _ _ => rfl⟩
  | cons h t ih =>
    obtain ⟨hh, hdx, hdy, hrest⟩ := hdz
    have hrc : rotationControl ps h = ps.containerRotation :=
      rotationControl_deadzone ps h hdx hdy
    have hframe_rot : (particleFrame ps h).containerRotation
        = autoLevel (shapeUpdate ps.isExploded h) ps.containerRotation := by
      simp [particleFrame, hh, hrc]
    have hframe_exp : (particleFrame ps h).isExploded = shapeUpdate ps.isExploded h := by
      simp [particleFrame, hh]
    have hstep : runPS ps (h :: t) = runPS (particleFrame ps h) t := rfl
    obtain ⟨ihy, ihall⟩ := ih (particleFrame ps h) hrest
    constructor
    · rw [hstep, ihy, hframe_rot, autoLevel_y]
    · intro hexp hcl
      have hE : shapeUpdate ps.isExploded h = true := by
        cases ho : h.isOpen <;>
          simp [shapeUpdate, hh, ho, hexp, hcl h (List.mem_cons_self h t)]
      have h1 : (particleFrame ps h).containerRotation = ps.containerRotation := by
        rw [hframe_rot, hE]
        rfl
      have h2 : (particleFrame ps h).isExploded = true := by rw [hframe_exp, hE]
      rw [hstep, ihall h2 (fun x hx => hcl x (List.mem_cons_of_mem h hx)), h1]

/-- Witness for C5 (amended): a concrete one-tick in-deadzone sequence in
EXPANDED mode leaves the whole orientation unchanged. -/
theorem deadzone_zero_net_rotation_witness :
    (runPS calmExpandedState [restingHand]).containerRotation
      = calmExpandedState.containerRotation :=
  (deadzone_zero_net_rotation calmExpandedState [restingHand]
      ⟨rfl, by norm_num [effDx, calmExpandedState, restingHand, DEADZONE],
        by norm_num [effDy, calmExpandedState, restingHand, DEADZONE], trivial⟩).2
    rfl
    (fun x hx => by
      rcases List.mem_singleton.mp hx with rfl
      rfl)

/-! ## C6 — compact-mode auto-leveling -/

/-- `lerp a 0 t` scales `a` by `1 - t`; at the auto-level rate 0.05 this is
multiplication by 19/20. -/
theorem lerp_zero_rate (a : ℚ) : lerp a 0 (1 / 20) = (19 / 20) * a := by
  unfold lerp
  ring

/-- A no-hand frame in compact mode: x and z decay by the factor 19/20, y and
the exploded flag are untouched (`wasTracking` is cleared). -/
theorem noHand_frame_compact (ps : PSState) (hc : ps.isExploded = false) :
    particleFrame ps noHand =
      ⟨⟨(19 / 20) * ps.containerRotation.x, ps.containerRotation.y,
          (19 / 20) * ps.containerRotation.z⟩,
        ps.prevHandPos, false, false⟩ := by
  have hsu : shapeUpdate ps.isExploded noHand = false := by
    simp [shapeUpdate, noHand, hc]
  rw [particleFrame]
  rw [if_neg (by simp [noHand] : ¬(noHand.hasHand = true))]
  rw [hsu, autoLevel]
  rw [if_neg (by simp : ¬(false = true))]
  simp only [PSState.mk.injEq, Euler3.mk.injEq, lerp, and_true, true_and,
    eq_self_iff_true]
  constructor <;> ring

/-- Closed form of the auto-leveling run: after `n` no-hand compact ticks the
x and z angles are the initial angles scaled by `(19/20)^n`; y is unchanged
and the mode stays compact. -/
theorem autoLevelRun_pow (ps : PSState) (hc : ps.isExploded = false) :
    ∀ n : ℕ,
      (autoLevelRun ps n).containerRotation.x
          = (19 / 20) ^ n * ps.containerRotation.x ∧
      (autoLevelRun ps n).containerRotation.z
          = (19 / 20) ^ n * ps.containerRotation.z ∧
      (autoLevelRun ps n).containerRotation.y = ps.containerRotation.y ∧
      (autoLevelRun ps n).isExploded = false
  | 0 => by simp [autoLevelRun, hc]
  | n + 1 => by
    obtain ⟨hx, hz, hy, he⟩ := autoLevelRun_pow ps hc n
    rw [autoLevelRun, noHand_frame_compact _ he]
    refine ⟨?_, ?_, hy, rfl⟩
    · show (19 / 20) * (autoLevelRun ps n).containerRotation.x = _
      rw [hx, pow_succ]
      ring
    · show (19 / 20) * (autoLevelRun ps n).containerRotation.z = _
      rw [hz, pow_succ]
      ring

/-- C6: with ShapeMode COMPACT and no hand input, each tick multiplies pitch
(x) and roll (z) by 19/20 — so their absolute values strictly decrease while
nonzero and their signs never flip (no overshoot) — the run converges to 0
(below any positive ε after enough ticks), and the y angle is never changed
by a no-hand tick in any mode. -/
theorem auto_level_decay (ps : PSState) (hc : ps.isExploded = false) :
    ((particleFrame ps noHand).containerRotation.x
        = (19 / 20) * ps.containerRotation.x) ∧
    ((particleFrame ps noHand).containerRotation.z
        = (19 / 20) * ps.containerRotation.z) ∧
    (ps.containerRotation.x ≠ 0 →
      |(particleFrame ps noHand).containerRotation.x| < |ps.containerRotation.x|) ∧
    (ps.containerRotation.z ≠ 0 →
      |(particleFrame ps noHand).containerRotation.z| < |ps.containerRotation.z|) ∧
    (0 ≤ ps.containerRotation.x → 0 ≤ (particleFrame ps noHand).containerRotation.x) ∧
    (ps.containerRotation.x ≤ 0 → (particleFrame ps noHand).containerRotation.x ≤ 0) ∧
    (0 ≤ ps.containerRotation.z → 0 ≤ (particleFrame ps noHand).containerRotation.z) ∧
    (ps.containerRotation.z ≤ 0 → (particleFrame ps noHand).containerRotation.z ≤ 0) ∧
    (∀ n : ℕ, |(autoLevelRun ps (n + 1)).containerRotation.x|
        ≤ |(autoLevelRun ps n).containerRotation.x|) ∧
    (∀ ε : ℚ, 0 < ε → ∃ n : ℕ,
      |(autoLevelRun ps n).containerRotation.x| < ε ∧
      |(autoLevelRun ps n).containerRotation.z| < ε) ∧
    (∀ ps' : PSState,
      (particleFrame ps' noHand).containerRotation.y = ps'.containerRotation.y) := by
  have hone : particleFrame ps noHand =
      ⟨⟨(19 / 20) * ps.containerRotation.x, ps.containerRotation.y,
          (19 / 20) * ps.containerRotation.z⟩,
        ps.prevHandPos, false, false⟩ := noHand_frame_compact ps hc
  rw [hone]
  refine ⟨rfl, rfl, ?_, ?_, ?_, ?_, ?_, ?_, ?_, ?_, ?_⟩
  · intro hne
    rw [abs_mul, abs_of_pos (by norm_num : (0:ℚ) < 19 / 20)]
    nlinarith [abs_pos.mpr hne]
  · intro hne
    rw [abs_mul, abs_of_pos (by norm_num : (0:ℚ) < 19 / 20)]
    nlinarith [abs_pos.mpr hne]
  · intro hge
    positivity
  · intro hle
    nlinarith
  · intro hge
    positivity
  · intro hle
    nlinarith
  · intro n
    obtain ⟨hxn, -, -, hen⟩ := autoLevelRun_pow ps hc n
    have : autoLevelRun ps (n + 1) = particleFrame (autoLevelRun ps n) noHand := rfl
    rw [this, noHand_frame_compact _ hen]
    show |(19 / 20) * (autoLevelRun ps n).containerRotation.x| ≤ _
    rw [abs_mul, abs_of_pos (by norm_num : (0:ℚ) < 19 / 20)]
    nlinarith [abs_nonneg (autoLevelRun ps n).containerRotation.x]
  · intro ε hε
    have hb : (0:ℚ) < 1 + |ps.containerRotation.x| + |ps.containerRotation.z| := by
      positivity
    obtain ⟨n, hn⟩ := exists_pow_lt_of_lt_one
      (div_pos hε hb) (by norm_num : (19 / 20 : ℚ) < 1)
    have hpow : (0:ℚ) ≤ (19 / 20) ^ n := by positivity
    obtain ⟨hxn, hzn, -, -⟩ := autoLevelRun_pow ps hc n
    refine ⟨n, ?_, ?_⟩
    · rw [hxn, abs_mul, abs_of_nonneg hpow]
      calc (19 / 20) ^ n * |ps.containerRotation.x|
          ≤ (ε / (1 + |ps.containerRotation.x| + |ps.containerRotation.z|))
              * |ps.containerRotation.x| := by
            apply mul_le_mul_of_nonneg_right (le_of_lt hn) (abs_nonneg _)
        _ < ε := by
            rw [div_mul_eq_mul_div, div_lt_iff₀ hb]
            nlinarith [abs_nonneg ps.containerRotation.x,
              abs_nonneg ps.containerRotation.z]
    · rw [hzn, abs_mul, abs_of_nonneg hpow]
      calc (19 / 20) ^ n * |ps.containerRotation.z|
          ≤ (ε / (1 + |ps.containerRotation.x| + |ps.containerRotation.z|))
              * |ps.containerRotation.z| := by
            apply mul_le_mul_of_nonneg_right (le_of_lt hn) (abs_nonneg _)
        _ < ε := by
            rw [div_mul_eq_mul_div, div_lt_iff₀ hb]
            nlinarith [abs_nonneg ps.containerRotation.x,
              abs_nonneg ps.containerRotation.z]
  · intro ps'
    rw [particleFrame]
    simp only [noHand, if_false, Bool.false_eq_true]
    exact autoLevel_y _ _

/-- Witness for C6: one no-hand compact tick from orientation (1,2,1) scales
pitch to 19/20. -/
theorem auto_level_decay_witness :
    (particleFrame tiltedCompactState noHand).containerRotation.x
      = (19 / 20) * tiltedCompactState.containerRotation.x :=
  (auto_level_decay tiltedCompactState rfl).1

/-! ## C7 — focus selection -/

/-- The running minimum returned by the fold is a lower bound of every list
element and of the incoming accumulator value. -/
theorem findClosestAux_le (ds : List ℚ) :
    ∀ (i : ℕ) (acc : Option (ℕ × ℚ)) (k : ℕ) (m : ℚ),
      findClosestAux i acc ds = some (k, m) →
      (∀ p (hp : p < ds.length), m ≤ ds.get ⟨p, hp⟩) ∧
      (∀ j ma, acc = some (j, ma) → m ≤ ma) := by
  induction ds with
  | nil =>
    intro i acc k m hr
    refine ⟨fun p hp => absurd hp (by simp), fun j ma hacc => ?_⟩
    rw [findClosestAux, hacc] at hr
    injection Option.some.inj hr with h1 h2
    subst h2
    exact le_refl _
  | cons d ds ih =>
    intro i acc k m hr
    match acc with
    | none =>
      have hr' : findClosestAux (i + 1) (some (i, d)) ds = some (k, m) := hr
      obtain ⟨h1, h2⟩ := ih (i + 1) (some (i, d)) k m hr'
      have hmd : m ≤ d := h2 i d rfl
      refine ⟨fun p hp => ?_, fun j ma hacc => by cases hacc⟩
      match p with
      | 0 => exact hmd
      | q + 1 => exact h1 q (by simpa [Nat.succ_lt_succ_iff] using hp)
    | some (j0, m0) =>
      by_cases hlt : d < m0
      · have hr' : findClosestAux (i + 1) (some (i, d)) ds = some (k, m) := by
          simpa [findClosestAux, hlt] using hr
        obtain ⟨h1, h2⟩ := ih (i + 1) (some (i, d)) k m hr'
        have hmd : m ≤ d := h2 i d rfl
        refine ⟨fun p hp => ?_, fun j ma hacc => ?_⟩
        · match p with
          | 0 => exact hmd
          | q + 1 => exact h1 q (by simpa [Nat.succ_lt_succ_iff] using hp)
        · injection Option.some.inj hacc with h1 h2
          subst h2
          exact le_of_lt (lt_of_le_of_lt hmd hlt)
      · have hr' : findClosestAux (i + 1) (some (j0, m0)) ds = some (k, m) := by
          simpa [findClosestAux, hlt] using hr
        obtain ⟨h1, h2⟩ := ih (i + 1) (some (j0, m0)) k m hr'
        have hm0 : m ≤ m0 := h2 j0 m0 rfl
        refine ⟨fun p hp => ?_, fun j ma hacc => ?_⟩
        · match p with
          | 0 => exact le_trans hm0 (not_lt.mp hlt)
          | q + 1 => exact h1 q (by simpa [Nat.succ_lt_succ_iff] using hp)
        · injection Option.some.inj hacc with h1 h2
          subst h2
          exact hm0

/-- Provenance: the fold's result is either the incoming accumulator or an
(index, element) pair of the list, with the index offset by the start index. -/
theorem findClosestAux_prov (ds : List ℚ) :
    ∀ (i : ℕ) (acc : Option (ℕ × ℚ)) (k : ℕ) (m : ℚ),
      findClosestAux i acc ds = some (k, m) →
      acc = some (k, m) ∨
        ∃ p, ∃ hp : p < ds.length, k = i + p ∧ m = ds.get ⟨p, hp⟩ := by
  induction ds with
  | nil => exact fun i acc k m hr => Or.inl hr
  | cons d ds ih =>
    intro i acc k m hr
    have step :
        ∀ (j1 : ℕ) (m1 : ℚ),
          findClosestAux (i + 1) (some (j1, m1)) ds = some (k, m) →
          (j1 = k ∧ m1 = m) ∨
            ∃ p, ∃ hp : p < ds.length, k = (i + 1) + p ∧ m = ds.get ⟨p, hp⟩ := by
      intro j1 m1 hr'
      rcases ih (i + 1) (some (j1, m1)) k m hr' with hl | hrr
      · injection Option.some.inj hl with h1 h2
        exact Or.inl ⟨h1, h2⟩
      · exact Or.inr hrr
    match acc with
    | none =>
      rcases step i d hr with ⟨rfl, rfl⟩ | ⟨p, hp, hk, hm⟩
      · exact Or.inr ⟨0, by simp, by omega, rfl⟩
      · exact Or.inr ⟨p + 1, by simpa [Nat.succ_lt_succ_iff] using hp,
          by omega, by simpa using hm⟩
    | some (j0, m0) =>
      by_cases hlt : d < m0
      · have hr' : findClosestAux (i + 1) (some (i, d)) ds = some (k, m) := by
          simpa [findClosestAux, hlt] using hr
        rcases step i d hr' with ⟨rfl, rfl⟩ | ⟨p, hp, hk, hm⟩
        · exact Or.inr ⟨0, by simp, by omega, rfl⟩
        · exact Or.inr ⟨p + 1, by simpa [Nat.succ_lt_succ_iff] using hp,
            by omega, by simpa using hm⟩
      · have hr' : findClosestAux (i + 1) (some (j0, m0)) ds = some (k, m) := by
          simpa [findClosestAux, hlt] using hr
        rcases step j0 m0 hr' with ⟨rfl, rfl⟩ | ⟨p, hp, hk, hm⟩
        · exact Or.inl rfl
        · exact Or.inr ⟨p + 1, by simpa [Nat.succ_lt_succ_iff] using hp,
            by omega, by simpa using hm⟩

/-- If no list element strictly beats the accumulator, the fold keeps it. -/
theorem findClosestAux_keep (ds : List ℚ) :
    ∀ (i j : ℕ) (ma : ℚ),
      (∀ p (hp : p < ds.length), ¬(ds.get ⟨p, hp⟩ < ma)) →
      findClosestAux i (some (j, ma)) ds = some (j, ma) := by
  induction ds with
  | nil => exact fun i j ma _ => rfl
  | cons d ds ih =>
    intro i j ma h
    have hd : ¬(d < ma) := h 0 (by simp)
    show findClosestAux (i + 1) (some (if d < ma then (i, d) else (j, ma))) ds
        = some (j, ma)
    rw [if_neg hd]
    exact ih (i + 1) j ma fun p hp =>
      h (p + 1) (by simpa [Nat.succ_lt_succ_iff] using hp)

/-- With a unique strict minimiser below every other element (and below the
accumulator), the fold returns exactly that position and value. -/
theorem findClosestAux_unique (ds : List ℚ) :
    ∀ (i : ℕ) (acc : Option (ℕ × ℚ)) (p : ℕ) (hp : p < ds.length),
      (∀ q (hq : q < ds.length), q ≠ p → ds.get ⟨p, hp⟩ < ds.get ⟨q, hq⟩) →
      (∀ j ma, acc = some (j, ma) → ds.get ⟨p, hp⟩ < ma) →
      findClosestAux i acc ds = some (i + p, ds.get ⟨p, hp⟩) := by
  induction ds with
  | nil => intro i acc p hp; exact absurd hp (by simp)
  | cons d ds ih =>
    intro i acc p hp huniq hacc
    match p with
    | 0 =>
      have hkeep : ∀ q (hq : q < ds.length), ¬(ds.get ⟨q, hq⟩ < d) := by
        intro q hq
        exact not_lt.mpr (le_of_lt
          (huniq (q + 1) (by simpa [Nat.succ_lt_succ_iff] using hq) (by omega)))
      match acc with
      | none =>
        show findClosestAux (i + 1) (some (i, d)) ds = _
        exact findClosestAux_keep ds (i + 1) i d hkeep
      | some (j0, m0) =>
        have hdm : d < m0 := hacc j0 m0 rfl
        show findClosestAux (i + 1) (some (if d < m0 then (i, d) else (j0, m0))) ds = _
        rw [if_pos hdm]
        exact findClosestAux_keep ds (i + 1) i d hkeep
    | p' + 1 =>
      have hp' : p' < ds.length := by simpa [Nat.succ_lt_succ_iff] using hp
      have htail : ∀ q (hq : q < ds.length), q ≠ p' →
          ds.get ⟨p', hp'⟩ < ds.get ⟨q, hq⟩ := by
        intro q hq hne
        exact huniq (q + 1) (by simpa [Nat.succ_lt_succ_iff] using hq) (by omega)
      have hlt_d : ds.get ⟨p', hp'⟩ < d := huniq 0 (by simp) (by omega)
      have hrec : ∀ (j1 : ℕ) (m1 : ℚ),
          (ds.get ⟨p', hp'⟩ < m1) →
          findClosestAux (i + 1) (some (j1, m1)) ds
            = some (i + (p' + 1), ds.get ⟨p', hp'⟩) := by
        intro j1 m1 hm1
        have := ih (i + 1) (some (j1, m1)) p' hp' htail
          (fun j ma hja => by
            injection Option.some.inj hja with h1 h2
            subst h2
            exact hm1)
        rw [this, show i + 1 + p' = i + (p' + 1) from by omega]
      match acc with
      | none => exact hrec i d hlt_d
      | some (j0, m0) =>
        have hm0 : ds.get ⟨p', hp'⟩ < m0 := hacc j0 m0 rfl
        show findClosestAux (i + 1) (some (if d < m0 then (i, d) else (j0, m0))) ds = _
        by_cases hlt : d < m0
        · rw [if_pos hlt]
          exact hrec i d hlt_d
        · rw [if_neg hlt]
          exact hrec j0 m0 hm0

/-- C7: the minimum-distance photo is hovered iff that minimum is below the
12.0 cutoff (stated for a unique minimiser); `selected = hovered ∧ pinching`;
at most one photo is hovered and at most one is selected on any tick; and the
spec's concrete scenarios: with distances 8 and 15 the nearer is hovered and
the farther is not, and with both distances beyond 12 none is hovered. -/
theorem focus_selection :
    (∀ (ds : List ℚ) (i : ℕ) (hi : i < ds.length),
      (∀ q (hq : q < ds.length), q ≠ i → ds.get ⟨i, hi⟩ < ds.get ⟨q, hq⟩) →
      (isHovered ds i = true ↔ ds.get ⟨i, hi⟩ < 12)) ∧
    (∀ (ds : List ℚ) (i j : ℕ),
      isHovered ds i = true → isHovered ds j = true → i = j) ∧
    (∀ (ds : List ℚ) (pinching : Bool) (i : ℕ),
      isSelected ds pinching i = true ↔ isHovered ds i = true ∧ pinching = true) ∧
    (∀ (ds : List ℚ) (pinching : Bool) (i j : ℕ),
      isSelected ds pinching i = true → isSelected ds pinching j = true → i = j) ∧
    (isHovered [8, 15] 0 = true) ∧
    (isHovered [8, 15] 1 = false) ∧
    (∀ i : ℕ, isHovered [13, 15] i = false) := by
  have hmain : ∀ (ds : List ℚ) (i : ℕ) (hi : i < ds.length),
      (∀ q (hq : q < ds.length), q ≠ i → ds.get ⟨i, hi⟩ < ds.get ⟨q, hq⟩) →
      (isHovered ds i = true ↔ ds.get ⟨i, hi⟩ < 12) := by
    intro ds i hi huniq
    have hfc : findClosest ds = some (i, ds.get ⟨i, hi⟩) := by
      have := findClosestAux_unique ds 0 none i hi huniq (fun j ma h => by cases h)
      simpa [findClosest, Nat.zero_add] using this
    by_cases h12 : ds.get ⟨i, hi⟩ < 12
    · simp [isHovered, closestIndex, hfc, h12]
    · simp [isHovered, closestIndex, hfc, h12]
  have hAtMostHover : ∀ (ds : List ℚ) (i j : ℕ),
      isHovered ds i = true → isHovered ds j = true → i = j := by
    intro ds i j hi hj
    simp only [isHovered, decide_eq_true_eq] at hi hj
    exact Option.some.inj (hi ▸ hj)
  have hSel : ∀ (ds : List ℚ) (pinching : Bool) (i : ℕ),
      isSelected ds pinching i = true ↔ isHovered ds i = true ∧ pinching = true := by
    intro ds pinching i
    simp [isSelected, Bool.and_eq_true]
  refine ⟨hmain, hAtMostHover, hSel, ?_, by decide, by decide, ?_⟩
  · intro ds pinching i j hi hj
    exact hAtMostHover ds i j ((hSel ds pinching i).mp hi).1 ((hSel ds pinching j).mp hj).1
  · intro i
    have hnone : closestIndex [13, 15] = none := by
      norm_num [closestIndex, findClosest, findClosestAux]
    simp [isHovered, hnone]

/-- Witness for C7: the unique-minimum characterization applied to the
concrete distance list [8, 15]. -/
theorem focus_selection_witness : isHovered [8, 15] 0 = true :=
  (focus_selection.1 [8, 15] 0 (by norm_num)
      (fun q hq hne => by
        have hq2 : q < 2 := by simpa using hq
        interval_cases q
        · exact absurd rfl hne
        · show (8 : ℚ) < 15
          norm_num)).mpr
    (by show (8 : ℚ) < 12; norm_num)

/-! ## C8 — per-object target position and smoothing -/

/-- C8 counterexample: photo objects are managed objects, but their displayed
position is advanced by `PhotoFrame`'s lerp with coefficient `10 × delta`
(here 1/6 at delta = 1/60), not by the SubSystem coefficient 0.08: the two
updates disagree at a concrete input. -/
theorem photo_smoothing_counterexample :
    photoFramePosStep ⟨0, 0, 0⟩ ⟨1, 0, 0⟩ (1 / 60) ≠ subSmooth ⟨0, 0, 0⟩ ⟨1, 0, 0⟩ := by
  norm_num [photoFramePosStep, vecLerp, subSmooth, lerpFactor, Vec3.mk.injEq]

/-- C8 amended: for every object rendered by an instanced `SubSystem` (all
non-photo categories), the target is the sphere anchor when EXPANDED and the
tree anchor plus the vertical oscillation `sin(time × 1.5 + i) × 0.05` when
COMPACT, and the displayed position advances per axis by
`displayed += (target − displayed) × 0.08`; photo objects instead advance
toward their display position per axis with coefficient `10 × delta`. -/
theorem subsystem_target_and_smoothing (isExploded : Bool) (sin : ℚ → ℚ)
    (time : ℚ) (i : ℕ) (p : ParticleData) (current : Vec3) (delta : ℚ)
    (target : Vec3) :
    (isExploded = true → subTarget isExploded sin time i p = p.spherePos) ∧
    (isExploded = false → subTarget isExploded sin time i p
        = ⟨p.treePos.x,
            p.treePos.y + sin (time * (3 / 2) + (i : ℚ)) * (1 / 20),
            p.treePos.z⟩) ∧
    (subSystemStep isExploded sin time i p current
        = ⟨current.x + ((subTarget isExploded sin time i p).x - current.x) * (2 / 25),
            current.y + ((subTarget isExploded sin time i p).y - current.y) * (2 / 25),
            current.z + ((subTarget isExploded sin time i p).z - current.z) * (2 / 25)⟩) ∧
    (photoFramePosStep current target delta
        = ⟨current.x + (target.x - current.x) * (10 * delta),
            current.y + (target.y - current.y) * (10 * delta),
            current.z + (target.z - current.z) * (10 * delta)⟩) := by
  refine ⟨fun he => by simp [subTarget, he], fun he => by simp [subTarget, he],
    rfl, rfl⟩

/-- Witness for C8 (amended): in EXPANDED mode the sample object's target is
exactly its sphere anchor. -/
theorem subsystem_target_and_smoothing_witness :
    subTarget true (fun q => q) 0 0 sampleParticle = sampleParticle.spherePos :=
  (subsystem_target_and_smoothing true (fun q => q) 0 0 sampleParticle
      ⟨0, 0, 0⟩ 0 ⟨0, 0, 0⟩).1 rfl

/-! ## C9 — hand-absent ticks leave the persistence counters alone -/

set_option maxRecDepth 10000 in
/-- C9: no hand-absent tick (grace or expiry) touches the three persistence
counters; concretely, after 5 raw-PINCH ticks and a full 40-tick dropout the
stable state has been forced to NEUTRAL but the pinch counter still reads 5,
so the very first hand-present raw-PINCH tick pushes it to 6 > 3 and the
stable state snaps back to PINCH immediately. -/
theorem absent_ticks_preserve_counters :
    (∀ s : TrackerState,
      (handAbsentTick s).1.pers.fistFrames = s.pers.fistFrames ∧
      (handAbsentTick s).1.pers.pinchFrames = s.pers.pinchFrames ∧
      (handAbsentTick s).1.pers.openFrames = s.pers.openFrames) ∧
    (dropoutState.pers.lastState = Gest.NEUTRAL) ∧
    (dropoutState.pers.pinchFrames = 5) ∧
    ((handPresentTick dropoutState pinchInput).1.pers.lastState = Gest.PINCH) ∧
    ((handPresentTick dropoutState pinchInput).2.isPinching = true) := by
  refine ⟨?_, by decide, by decide, by decide, by decide⟩
  intro s
  by_cases h : s.missingHandFrames + 1 < GRACE_LIMIT <;>
    simp [handAbsentTick, h]

/-! ## C10 — grace expiry does not reset the smoothing accumulators -/

/-- C10: a hand-absent tick never changes the smoothed pointer/pinch
accumulators; on expiry it emits the reset baseline (pointer at the origin,
pinch 1) while the accumulators keep their pre-dropout values; and every
hand-present emission smooths from the stored accumulators
(`smoothed += (raw − smoothed) × 0.3`), so after reacquisition the pointer
continues from the stale values (concretely 7/5, not 0). -/
theorem grace_expiry_keeps_smoothed :
    (∀ s : TrackerState, (handAbsentTick s).1.smoothed = s.smoothed) ∧
    (∀ s : TrackerState, ¬(s.missingHandFrames + 1 < GRACE_LIMIT) →
      (handAbsentTick s).2 = resetData) ∧
    (∀ (s : TrackerState) (f : RawInput),
      (handPresentTick s f).2.palmX
          = s.smoothed.x + (f.rawX - s.smoothed.x) * (3 / 10) ∧
      (handPresentTick s f).2.palmY
          = s.smoothed.y + (f.rawY - s.smoothed.y) * (3 / 10) ∧
      (handPresentTick s f).2.pinchDistance
          = s.smoothed.pinch + (f.targetPinch - s.smoothed.pinch) * (3 / 10)) ∧
    ((handAbsentTick preDropoutState).2.palmX = 0) ∧
    ((handAbsentTick preDropoutState).2.pinchDistance = 1) ∧
    ((handAbsentTick preDropoutState).1.smoothed = preDropoutState.smoothed) ∧
    ((handPresentTick (handAbsentTick preDropoutState).1 zeroInput).2.palmX = 7 / 5) := by
  refine ⟨?_, ?_, fun s f => ⟨rfl, rfl, rfl⟩, ?_, ?_, ?_, ?_⟩
  · intro s
    by_cases h : s.missingHandFrames + 1 < GRACE_LIMIT <;>
      simp [handAbsentTick, h]
  · intro s h
    simp [handAbsentTick, h]
  · norm_num [handAbsentTick, preDropoutState, GRACE_LIMIT, resetData]
  · norm_num [handAbsentTick, preDropoutState, GRACE_LIMIT, resetData]
  · norm_num [handAbsentTick, preDropoutState, GRACE_LIMIT]
  · norm_num [handPresentTick, handAbsentTick, stepSmoothed, preDropoutState,
      zeroInput, alpha, GRACE_LIMIT]

/-- Witness for C10: the expiry-emission conjunct applied to the concrete
pre-dropout state. -/
theorem grace_expiry_keeps_smoothed_witness :
    (handAbsentTick preDropoutState).2 = resetData :=
  grace_expiry_keeps_smoothed.2.1 preDropoutState
    (by simp [preDropoutState, GRACE_LIMIT])

end XmasTree
